import Mathlib

/-!
Process bootstrap of the user web server (`cmd/main.go`).

A shallow embedding of `main`, `run` and `runMigrations`.  The packages that
`main.go` imports (configuration, database dial, migration runner, Echo) are
collaborators: their answers are supplied by an environment `Env`, and every
call made to them is recorded, in program order, in a trace of `Event`s.
A process either finishes a function normally, exits, or stays blocked in a
call that never returns.
-/

namespace SimpleWebServer

/-! ## Values -/

/-- Go `error` values that are not nil.  `errorsNew msg` is the value built by
`errors.New(msg)`, `ErrNoChange` is the sentinel `migrate.ErrNoChange`, and
`foreign n` stands for any other error a collaborator may hand back.  A Go
variable of type `error` is an `Option GoError`, with `none` for nil. -/
inductive GoError where
  | errorsNew (msg : String)
  | ErrNoChange
  | foreign (id : Nat)
  deriving DecidableEq, Repr

/-- The fields of `config.Config` that `main.go` reads. -/
structure Config where
  PgURL : String
  PgMigrationsPath : String
  deriving DecidableEq, Repr

/-- The value of `context.Background()`. -/
inductive Context where
  | Background
  deriving DecidableEq, Repr

/-- The logger handle returned by `logger.Get()`. -/
structure Logger where
  id : Nat
  deriving DecidableEq, Repr

/-- The connection handle returned by `db.Dial`. -/
structure DB where
  id : Nat
  deriving DecidableEq, Repr

/-- The `*migrate.Migrate` handle returned by `migrate.New`. -/
structure Migrate where
  id : Nat
  deriving DecidableEq, Repr

/-- The value of `pg.NewUserRepo(pgDB)`. -/
structure UserRepo where
  db : DB
  deriving DecidableEq, Repr

/-- The value of `web.NewUserWebService(ctx, userRepo)`. -/
structure UserWebService where
  ctx : Context
  repo : UserRepo
  deriving DecidableEq, Repr

/-- The value of `controller.NewUsers(ctx, userService, l)`. -/
structure Users where
  ctx : Context
  service : UserWebService
  logger : Logger
  deriving DecidableEq, Repr

/-- The handler methods of the users controller that `main.go` names
(`Update` only in the commented-out line 74). -/
inductive UsersMethod where
  | Get
  | Delete
  | Update
  | Create
  deriving DecidableEq, Repr

/-- A method value such as `userController.Get`: the receiver and the method. -/
structure HandlerFunc where
  recv : Users
  method : UsersMethod
  deriving DecidableEq, Repr

/-- HTTP request methods of `net/http`. -/
inductive HTTPMethod where
  | GET
  | HEAD
  | POST
  | PUT
  | PATCH
  | DELETE
  | CONNECT
  | OPTIONS
  | TRACE
  deriving DecidableEq, Repr

/-- One entry of the Echo route table. -/
structure Route where
  method : HTTPMethod
  path : String
  handler : HandlerFunc
  deriving DecidableEq, Repr

/-- Values assignable to `e.Validator`. -/
inductive Validator where
  | NewValidator
  deriving DecidableEq, Repr

/-- Values assignable to `e.HTTPErrorHandler`: the handler Echo starts with,
and `libError.Error`. -/
inductive HTTPErrorHandler where
  | DefaultHTTPErrorHandler
  | libErrorError
  deriving DecidableEq, Repr

/-- The middleware values used by `run`. -/
inductive MiddlewareFunc where
  | Logger
  | Recover
  deriving DecidableEq, Repr

/-- The part of an `*echo.Echo` that `run` writes. -/
structure Echo where
  Validator : Option Validator
  HTTPErrorHandler : HTTPErrorHandler
  middleware : List MiddlewareFunc
  routes : List Route
  deriving DecidableEq, Repr

/-- An `*echo.Group`: the path under which its routes are registered. -/
structure Group where
  pfx : String
  deriving DecidableEq, Repr

/-! ## Effects -/

/-- What `main.go` does to its collaborators, in program order: the calls it
makes and its two assignments to fields of the Echo instance. -/
inductive Event where
  | configGet
  | loggerGet
  | dbDial (cfg : Config)
  | logPrintln (msg : String)
  | logFatal (err : GoError)
  | migrateNew (sourceURL databaseURL : String)
  | migrateUp (m : Migrate)
  | newUserRepo (db : DB)
  | newUserWebService (ctx : Context) (repo : UserRepo)
  | newUsers (ctx : Context) (service : UserWebService) (l : Logger)
  | echoNew
  | setValidator (v : Validator)
  | setHTTPErrorHandler (h : HTTPErrorHandler)
  | use (m : MiddlewareFunc)
  | group (pfx : String)
  | add (r : Route)
  | start (e : Echo) (address : String)
  | loggerFatal (v : Option GoError)
  deriving DecidableEq, Repr

/-- What `e.Start` does: serve forever, or return an error value. -/
inductive StartResult where
  | blocks
  | returns (err : Option GoError)
  deriving DecidableEq, Repr

/-- What `e.Logger.Fatal` does: end the process with a status, or return. -/
inductive FatalResult where
  | exits (code : Nat)
  | returns
  deriving DecidableEq, Repr

/-- The answers of the collaborators. -/
structure Env where
  configGet : Config
  loggerGet : Logger
  dbDial : Config → DB × Option GoError
  migrateNew : String → String → Migrate × Option GoError
  migrateUp : Migrate → Option GoError
  echoStart : Echo → String → StartResult
  loggerFatal : Option GoError → FatalResult

/-- How a piece of the program ends: it yields a value, the process exits with
a status, or control never comes back. -/
inductive Step (α : Type) where
  | done (a : α)
  | exited (code : Nat)
  | blocked
  deriving DecidableEq, Repr

/-- A run of a piece of the program: the calls it made and how it ended. -/
structure Proc (α : Type) where
  trace : List Event
  step : Step α

/-- A computation that makes no call. -/
def Proc.pure {α : Type} (a : α) : Proc α := ⟨[], .done a⟩

/-- Sequencing: the second piece runs only when the first yields a value. -/
def Proc.bind {α β : Type} (p : Proc α) (f : α → Proc β) : Proc β :=
  match p.step with
  | .done a => ⟨p.trace ++ (f a).trace, (f a).step⟩
  | .exited c => ⟨p.trace, .exited c⟩
  | .blocked => ⟨p.trace, .blocked⟩

instance : Monad Proc where
  pure := Proc.pure
  bind := Proc.bind

/-- A call that returns `a`. -/
def call {α : Type} (e : Event) (a : α) : Proc α := ⟨[e], .done a⟩

/-! ## Collaborator calls -/

/-- Call of `config.Get()`. -/
def configGet (env : Env) : Proc Config := call .configGet env.configGet

/-- Call of `logger.Get()`. -/
def loggerGet (env : Env) : Proc Logger := call .loggerGet env.loggerGet

/-- Call of `db.Dial(cfg)`. -/
def dbDial (env : Env) (cfg : Config) : Proc (DB × Option GoError) :=
  call (.dbDial cfg) (env.dbDial cfg)

/-- Call of `log.Println(msg)`. -/
def logPrintln (msg : String) : Proc Unit := call (.logPrintln msg) ()

/-- Call of `log.Fatal(err)` of the standard library: print, then `os.Exit(1)`. -/
def logFatal {α : Type} (err : GoError) : Proc α := ⟨[.logFatal err], .exited 1⟩

/-- Call of `migrate.New(sourceURL, databaseURL)`. -/
def migrateNew (env : Env) (sourceURL databaseURL : String) : Proc (Migrate × Option GoError) :=
  call (.migrateNew sourceURL databaseURL) (env.migrateNew sourceURL databaseURL)

/-- Call of `m.Up()`. -/
def Migrate.Up (env : Env) (m : Migrate) : Proc (Option GoError) :=
  call (.migrateUp m) (env.migrateUp m)

/-! ## `runMigrations` -/

/-- Source: `runMigrations` (main.go lines 84-102). -/
def runMigrations (env : Env) (cfg : Config) : Proc (Option GoError) := do
  if cfg.PgMigrationsPath = "" then
    return some (GoError.errorsNew "No cfg.PgMigrationsPath provided")
  if cfg.PgURL = "" then
    return some (GoError.errorsNew "No cfg.PgURL provided")
  let (m, err) ← migrateNew env cfg.PgMigrationsPath cfg.PgURL
  if err ≠ none then
    return err
  let err ← m.Up env
  if err ≠ none ∧ err ≠ some GoError.ErrNoChange then
    return err
  return none

/-! ## The Echo instance -/

/-- Call of `echo.New()`: no validator, the default error handler, no
middleware and no route. -/
def echoNew : Proc Echo := call .echoNew ⟨none, .DefaultHTTPErrorHandler, [], []⟩

/-- The assignment `e.Validator = v`. -/
def Echo.setValidator (e : Echo) (v : SimpleWebServer.Validator) : Proc Echo :=
  call (.setValidator v) { e with Validator := some v }

/-- The assignment `e.HTTPErrorHandler = h`. -/
def Echo.setHTTPErrorHandler (e : Echo) (h : SimpleWebServer.HTTPErrorHandler) : Proc Echo :=
  call (.setHTTPErrorHandler h) { e with HTTPErrorHandler := h }

/-- Call of `e.Use(m)`: appends to the middleware chain. -/
def Echo.Use (e : Echo) (m : MiddlewareFunc) : Proc Echo :=
  call (.use m) { e with middleware := e.middleware ++ [m] }

/-- Call of `e.Group(pfx)` without middleware: a group that registers nothing
by itself. -/
def Echo.Group (_e : Echo) (pfx : String) : Proc Group := call (.group pfx) ⟨pfx⟩

/-- Echo's `Group.Add`: the route is added to the Echo instance under the
group path followed by `path`. -/
def Group.Add (g : Group) (e : Echo) (method : HTTPMethod) (path : String) (h : HandlerFunc) :
    Proc Echo :=
  call (.add ⟨method, g.pfx ++ path, h⟩) { e with routes := e.routes ++ [⟨method, g.pfx ++ path, h⟩] }

/-- Call of `g.GET(path, h)`. -/
def Group.GET (g : Group) (e : Echo) (path : String) (h : HandlerFunc) : Proc Echo :=
  g.Add e .GET path h

/-- Call of `g.DELETE(path, h)`. -/
def Group.DELETE (g : Group) (e : Echo) (path : String) (h : HandlerFunc) : Proc Echo :=
  g.Add e .DELETE path h

/-- Call of `g.PUT(path, h)`. -/
def Group.PUT (g : Group) (e : Echo) (path : String) (h : HandlerFunc) : Proc Echo :=
  g.Add e .PUT path h

/-- Call of `g.POST(path, h)`. -/
def Group.POST (g : Group) (e : Echo) (path : String) (h : HandlerFunc) : Proc Echo :=
  g.Add e .POST path h

/-- Call of `e.Start(address)`: it serves forever or returns an error value. -/
def Echo.Start (env : Env) (e : Echo) (address : String) : Proc (Option GoError) :=
  match env.echoStart e address with
  | .blocks => ⟨[.start e address], .blocked⟩
  | .returns err => call (.start e address) err

/-- Call of `e.Logger.Fatal(v)`. -/
def Echo.LoggerFatal (env : Env) (_e : Echo) (v : Option GoError) : Proc Unit :=
  match env.loggerFatal v with
  | .exits code => ⟨[.loggerFatal v], .exited code⟩
  | .returns => call (.loggerFatal v) ()

/-- Call of `pg.NewUserRepo(pgDB)`. -/
def NewUserRepo (pgDB : DB) : Proc UserRepo := call (.newUserRepo pgDB) ⟨pgDB⟩

/-- Call of `web.NewUserWebService(ctx, userRepo)`. -/
def NewUserWebService (ctx : Context) (userRepo : UserRepo) : Proc UserWebService :=
  call (.newUserWebService ctx userRepo) ⟨ctx, userRepo⟩

/-- Call of `controller.NewUsers(ctx, userService, l)`. -/
def NewUsers (ctx : Context) (userService : UserWebService) (l : Logger) : Proc Users :=
  call (.newUsers ctx userService l) ⟨ctx, userService, l⟩

/-! ## `run` and `main` -/

/-- Source: `run` (main.go lines 31-81). -/
def run (env : Env) : Proc (Option GoError) := do
  let ctx := Context.Background
  -- config
  let cfg ← configGet env
  -- logger
  let l ← loggerGet env
  -- connect to Postgres
  let (pgDB, err) ← dbDial env cfg
  if let some err := err then
    logFatal err
  -- Run Postgres migrations
  logPrintln "Running PostgreSQL migrations..."
  let err ← runMigrations env cfg
  if let some err := err then
    logFatal err
  -- Init repositories
  let userRepo ← NewUserRepo pgDB
  -- Init services
  let userService ← NewUserWebService ctx userRepo
  -- Init controllers
  let userController ← NewUsers ctx userService l
  -- Echo instance
  let e ← echoNew
  let e ← e.setValidator Validator.NewValidator
  let e ← e.setHTTPErrorHandler HTTPErrorHandler.libErrorError
  -- Middleware
  let e ← e.Use MiddlewareFunc.Logger
  let e ← e.Use MiddlewareFunc.Recover
  -- Routes
  let userRoutes ← e.Group "/users"
  let e ← userRoutes.GET e "/:id" ⟨userController, .Get⟩
  let e ← userRoutes.DELETE e "/:id" ⟨userController, .Delete⟩
  --userRoutes.PUT e "/:id" ⟨userController, .Update⟩
  let e ← userRoutes.POST e "/" ⟨userController, .Create⟩
  -- Start server
  let v ← e.Start env ":1323"
  e.LoggerFatal env v
  return none

/-- Source: `main` (main.go lines 25-29). -/
def main (env : Env) : Proc Unit := do
  let err ← run env
  if let some err := err then
    logFatal err

/-! ## Observations on traces -/

/-- The route an event registers, if it is a registration. -/
def Event.route? : Event → Option Route
  | .add r => some r
  | _ => none

/-- The routes registered in a trace, in registration order. -/
def registered (t : List Event) : List Route := t.filterMap Event.route?

/-- The steps that make the core reachable: construction of the repository,
the service and the controller, registration of a route, start of the server. -/
def Event.isCore : Event → Bool
  | .newUserRepo _ => true
  | .newUserWebService _ _ => true
  | .newUsers _ _ _ => true
  | .add _ => true
  | .start _ _ => true
  | _ => false

/-- Registration of a route or start of the server. -/
def Event.isServe : Event → Bool
  | .add _ => true
  | .start _ _ => true
  | _ => false

/-- An assignment to `e.HTTPErrorHandler`. -/
def Event.isSetHTTPErrorHandler : Event → Bool
  | .setHTTPErrorHandler _ => true
  | _ => false

/-- A call to the migration runner (`migrate.New` or `Up`). -/
def Event.isMigrate : Event → Bool
  | .migrateNew _ _ => true
  | .migrateUp _ => true
  | _ => false

/-- A fatal-log call (`log.Fatal` or `e.Logger.Fatal`). -/
def Event.isFatal : Event → Bool
  | .logFatal _ => true
  | .loggerFatal _ => true
  | _ => false

/-- The controller value that `run` builds from the answers of `db.Dial` and
`logger.Get`. -/
def userControllerOf (env : Env) : Users :=
  ⟨.Background, ⟨.Background, ⟨(env.dbDial env.configGet).1⟩⟩, env.loggerGet⟩

/-- The calls of `run` up to the end of `runMigrations`, when `db.Dial` succeeds. -/
def bootEvents (env : Env) : List Event :=
  [.configGet, .loggerGet, .dbDial env.configGet, .logPrintln "Running PostgreSQL migrations..."]
    ++ (runMigrations env env.configGet).trace

/-- The calls of `run` from the construction of the repository to the last
route registration, for the controller `c`. -/
def setupEvents (c : Users) : List Event :=
  [.newUserRepo c.service.repo.db,
   .newUserWebService .Background c.service.repo,
   .newUsers .Background c.service c.logger,
   .echoNew,
   .setValidator .NewValidator,
   .setHTTPErrorHandler .libErrorError,
   .use .Logger,
   .use .Recover,
   .group "/users",
   .add ⟨.GET, "/users/:id", ⟨c, .Get⟩⟩,
   .add ⟨.DELETE, "/users/:id", ⟨c, .Delete⟩⟩,
   .add ⟨.POST, "/users/", ⟨c, .Create⟩⟩]

/-- The Echo instance on which `run` calls `Start`, for the controller `c`. -/
def servedEcho (c : Users) : Echo :=
  ⟨some .NewValidator, .libErrorError, [.Logger, .Recover],
    [⟨.GET, "/users/:id", ⟨c, .Get⟩⟩, ⟨.DELETE, "/users/:id", ⟨c, .Delete⟩⟩,
     ⟨.POST, "/users/", ⟨c, .Create⟩⟩]⟩

/-- The last statements of `run`, on the Echo instance `e`: start the server,
hand what `Start` returns to `e.Logger.Fatal`, return nil. -/
def startServer (env : Env) (e : Echo) : Proc (Option GoError) := do
  let v ← e.Start env ":1323"
  e.LoggerFatal env v
  return none

/-! ## Sample environments -/

/-- An environment in which every collaborator succeeds and the server, once
started, is shut down and `e.Logger.Fatal` ends the process. -/
def envOk : Env where
  configGet := ⟨"postgres://localhost/users", "file://migrations"⟩
  loggerGet := ⟨0⟩
  dbDial := fun _ => (⟨1⟩, none)
  migrateNew := fun _ _ => (⟨2⟩, none)
  migrateUp := fun _ => none
  echoStart := fun _ _ => .returns (some (.foreign 7))
  loggerFatal := fun _ => .exits 1

/-! ## Theorems -/

theorem Proc.pure_eq {α : Type} (a : α) : (Pure.pure a : Proc α) = ⟨[], .done a⟩ := rfl

theorem Proc.bind_done {α β : Type} (t : List Event) (a : α) (f : α → Proc β) :
    ((⟨t, .done a⟩ : Proc α) >>= f) = ⟨t ++ (f a).trace, (f a).step⟩ := rfl

theorem Proc.bind_exited {α β : Type} (t : List Event) (c : Nat) (f : α → Proc β) :
    ((⟨t, .exited c⟩ : Proc α) >>= f) = ⟨t, .exited c⟩ := rfl

theorem Proc.bind_blocked {α β : Type} (t : List Event) (f : α → Proc β) :
    ((⟨t, .blocked⟩ : Proc α) >>= f) = ⟨t, .blocked⟩ := rfl

theorem Proc.bind_call {α β : Type} (e : Event) (a : α) (f : α → Proc β) :
    (call e a >>= f) = ⟨e :: (f a).trace, (f a).step⟩ := rfl

/-- The ways `runMigrations` can go, branch by branch. -/
theorem runMigrations_eq (env : Env) (cfg : Config) :
    runMigrations env cfg =
      if cfg.PgMigrationsPath = "" then
        ⟨[], .done (some (.errorsNew "No cfg.PgMigrationsPath provided"))⟩
      else if cfg.PgURL = "" then
        ⟨[], .done (some (.errorsNew "No cfg.PgURL provided"))⟩
      else if (env.migrateNew cfg.PgMigrationsPath cfg.PgURL).2 ≠ none then
        ⟨[.migrateNew cfg.PgMigrationsPath cfg.PgURL],
          .done (env.migrateNew cfg.PgMigrationsPath cfg.PgURL).2⟩
      else
        ⟨[.migrateNew cfg.PgMigrationsPath cfg.PgURL,
            .migrateUp (env.migrateNew cfg.PgMigrationsPath cfg.PgURL).1],
          .done (if env.migrateUp (env.migrateNew cfg.PgMigrationsPath cfg.PgURL).1
                      = some .ErrNoChange then none
                 else env.migrateUp (env.migrateNew cfg.PgMigrationsPath cfg.PgURL).1)⟩ := by
  unfold runMigrations
  by_cases h1 : cfg.PgMigrationsPath = ""
  · simp [h1, Proc.pure_eq]
  by_cases h2 : cfg.PgURL = ""
  · simp [h1, h2, Proc.pure_eq, Proc.bind_done]
  simp only [h1, h2, if_false, migrateNew, Migrate.Up, Proc.bind_call, Proc.pure_eq,
    Proc.bind_done]
  generalize env.migrateNew cfg.PgMigrationsPath cfg.PgURL = r
  obtain ⟨m, err⟩ := r
  generalize env.migrateUp m = up
  cases err with
  | some e => simp
  | none =>
    cases up with
    | none => simp
    | some u =>
      by_cases hu : u = GoError.ErrNoChange
      · simp [hu]
      · simp [hu]

/-- `runMigrations` always comes back to its caller with a value. -/
theorem runMigrations_returns (env : Env) (cfg : Config) :
    ∃ r, (runMigrations env cfg).step = .done r := by
  rw [runMigrations_eq]
  split_ifs <;> exact ⟨_, rfl⟩

/-- The calls made by `runMigrations` are calls to the migration runner. -/
theorem runMigrations_trace_isMigrate (env : Env) (cfg : Config) :
    ∀ e ∈ (runMigrations env cfg).trace, e.isMigrate = true := by
  rw [runMigrations_eq]
  split_ifs <;> simp [Event.isMigrate]

/-- `run` when `db.Dial` fails. -/
theorem run_dial_err (env : Env) (err : GoError) (hd : (env.dbDial env.configGet).2 = some err) :
    run env = ⟨[.configGet, .loggerGet, .dbDial env.configGet, .logFatal err], .exited 1⟩ := by
  unfold run
  simp only [configGet, loggerGet, dbDial, Proc.bind_call]
  revert hd
  generalize env.dbDial env.configGet = d
  obtain ⟨db, e⟩ := d
  rintro ⟨rfl⟩
  simp [logFatal, Proc.bind_exited]

/-- `run` when `db.Dial` succeeds and `runMigrations` returns an error. -/
theorem run_mig_err (env : Env) (err : GoError) (hd : (env.dbDial env.configGet).2 = none)
    (hm : (runMigrations env env.configGet).step = .done (some err)) :
    run env = ⟨bootEvents env ++ [.logFatal err], .exited 1⟩ := by
  unfold run bootEvents
  simp only [configGet, loggerGet, dbDial, Proc.bind_call]
  revert hd hm
  generalize env.dbDial env.configGet = d
  generalize runMigrations env env.configGet = mig
  obtain ⟨db, e⟩ := d
  obtain ⟨t, st⟩ := mig
  rintro ⟨rfl⟩ ⟨rfl⟩
  simp [logFatal, logPrintln, Proc.bind_exited, Proc.bind_done, Proc.bind_call, Proc.pure_eq]

/-- `run` when `db.Dial` and `runMigrations` succeed: everything up to the
call of `Start`. -/
theorem run_ok (env : Env) (hd : (env.dbDial env.configGet).2 = none)
    (hm : (runMigrations env env.configGet).step = .done none) :
    run env =
      ⟨bootEvents env ++ setupEvents (userControllerOf env) ++
          (startServer env (servedEcho (userControllerOf env))).trace,
        (startServer env (servedEcho (userControllerOf env))).step⟩ := by
  unfold run bootEvents setupEvents servedEcho userControllerOf startServer
  simp only [configGet, loggerGet, dbDial, Proc.bind_call]
  revert hd hm
  generalize env.dbDial env.configGet = d
  generalize runMigrations env env.configGet = mig
  obtain ⟨db, e⟩ := d
  obtain ⟨t, st⟩ := mig
  rintro ⟨rfl⟩ ⟨rfl⟩
  simp [logFatal, logPrintln, Proc.bind_exited, Proc.bind_done, Proc.bind_call, Proc.pure_eq,
    NewUserRepo, NewUserWebService, NewUsers, echoNew, Echo.setValidator,
    Echo.setHTTPErrorHandler, Echo.Use, Echo.Group, Group.GET, Group.DELETE, Group.POST,
    Group.Add]

/-- The last statements of `run`, outcome by outcome. -/
theorem startServer_eq (env : Env) (e : Echo) :
    startServer env e =
      match env.echoStart e ":1323" with
      | .blocks => ⟨[.start e ":1323"], .blocked⟩
      | .returns v =>
        match env.loggerFatal v with
        | .exits c => ⟨[.start e ":1323", .loggerFatal v], .exited c⟩
        | .returns => ⟨[.start e ":1323", .loggerFatal v], .done none⟩ := by
  unfold startServer Echo.Start Echo.LoggerFatal
  cases env.echoStart e ":1323" with
  | blocks => simp [Proc.bind_blocked]
  | returns v =>
    cases hf : env.loggerFatal v with
    | exits c => simp [Proc.bind_call, Proc.bind_exited, hf]
    | returns => simp [Proc.bind_call, Proc.pure_eq, hf]

/-- Every run of `run` has one of five shapes. -/
theorem run_cases (env : Env) :
    (∃ err, (env.dbDial env.configGet).2 = some err ∧
      run env = ⟨[.configGet, .loggerGet, .dbDial env.configGet, .logFatal err], .exited 1⟩) ∨
    (∃ err, (env.dbDial env.configGet).2 = none ∧
      (runMigrations env env.configGet).step = .done (some err) ∧
      run env = ⟨bootEvents env ++ [.logFatal err], .exited 1⟩) ∨
    ((env.dbDial env.configGet).2 = none ∧
      (runMigrations env env.configGet).step = .done none ∧
      ∃ tail st,
        run env = ⟨bootEvents env ++ setupEvents (userControllerOf env) ++
          .start (servedEcho (userControllerOf env)) ":1323" :: tail, st⟩ ∧
        ((env.echoStart (servedEcho (userControllerOf env)) ":1323" = .blocks ∧
            tail = [] ∧ st = .blocked) ∨
         (∃ v, env.echoStart (servedEcho (userControllerOf env)) ":1323" = .returns v ∧
            tail = [.loggerFatal v] ∧
            ((∃ c, env.loggerFatal v = .exits c ∧ st = .exited c) ∨
             (env.loggerFatal v = .returns ∧ st = .done none))))) := by
  cases hd : (env.dbDial env.configGet).2 with
  | some err => exact Or.inl ⟨err, rfl, run_dial_err env err hd⟩
  | none =>
    obtain ⟨r, hr⟩ := runMigrations_returns env env.configGet
    cases r with
    | some err => exact Or.inr (Or.inl ⟨err, rfl, hr, run_mig_err env err hd hr⟩)
    | none =>
      refine Or.inr (Or.inr ⟨rfl, hr, ?_⟩)
      rw [run_ok env hd hr, startServer_eq]
      cases hs : env.echoStart (servedEcho (userControllerOf env)) ":1323" with
      | blocks => exact ⟨[], .blocked, rfl, Or.inl ⟨rfl, rfl, rfl⟩⟩
      | returns v =>
        dsimp only
        cases hf : env.loggerFatal v with
        | exits c =>
          exact ⟨[.loggerFatal v], .exited c, rfl, Or.inr ⟨v, rfl, rfl, Or.inl ⟨c, hf, rfl⟩⟩⟩
        | returns =>
          exact ⟨[.loggerFatal v], .done none, rfl, Or.inr ⟨v, rfl, rfl, Or.inr ⟨hf, rfl⟩⟩⟩

/-- What the calls up to the end of `runMigrations` can be. -/
theorem mem_bootEvents (env : Env) (e : Event) (h : e ∈ bootEvents env) :
    e = .configGet ∨ e = .loggerGet ∨ e = .dbDial env.configGet ∨
      e = .logPrintln "Running PostgreSQL migrations..." ∨ e.isMigrate = true := by
  unfold bootEvents at h
  rcases List.mem_append.1 h with h | h
  · simp at h
    tauto
  · exact Or.inr (Or.inr (Or.inr (Or.inr (runMigrations_trace_isMigrate env _ e h))))

/-- If the front part of a trace holds no event of a kind, an event of that
kind can only be met after the whole front part. -/
theorem front_of_split (q : Event → Bool) :
    ∀ (A B pre post : List Event) (e : Event), (∀ x ∈ A, q x = false) →
      A ++ B = pre ++ e :: post → q e = true → A <+: pre
  | [], _, pre, _, _, _, _, _ => List.nil_prefix
  | a :: A, B, [], post, e, hA, h, he => by
    simp at h
    have := hA a (List.mem_cons_self _ _)
    rw [h.1, he] at this
    cases this
  | a :: A, B, p :: pre, post, e, hA, h, he => by
    simp at h
    obtain ⟨rfl, h⟩ := h
    have ih := front_of_split q A B pre post e
      (fun x hx => hA x (List.mem_cons_of_mem _ hx)) h he
    exact (List.prefix_cons_inj a).2 ih

/-- The calls up to the end of `runMigrations` register no route, are no
step of the core, and do not assign the error handler. -/
theorem bootEvents_kind (env : Env) (e : Event) (h : e ∈ bootEvents env) :
    e.route? = none ∧ e.isCore = false ∧ e.isServe = false ∧
      e.isSetHTTPErrorHandler = false ∧ e.isFatal = false := by
  rcases mem_bootEvents env e h with h | h | h | h | h
  · subst h; simp [Event.route?, Event.isCore, Event.isServe, Event.isSetHTTPErrorHandler, Event.isFatal]
  · subst h; simp [Event.route?, Event.isCore, Event.isServe, Event.isSetHTTPErrorHandler, Event.isFatal]
  · subst h; simp [Event.route?, Event.isCore, Event.isServe, Event.isSetHTTPErrorHandler, Event.isFatal]
  · subst h; simp [Event.route?, Event.isCore, Event.isServe, Event.isSetHTTPErrorHandler, Event.isFatal]
  · cases e <;>
      simp_all [Event.route?, Event.isCore, Event.isServe, Event.isSetHTTPErrorHandler,
        Event.isFatal, Event.isMigrate]

theorem registered_bootEvents (env : Env) : registered (bootEvents env) = [] := by
  unfold registered
  rw [List.filterMap_eq_nil_iff]
  exact fun e he => (bootEvents_kind env e he).1

theorem registered_append (s t : List Event) :
    registered (s ++ t) = registered s ++ registered t := by
  simp [registered, List.filterMap_append]

theorem start_not_mem_bootEvents (env : Env) (e : Echo) (a : String) :
    Event.start e a ∉ bootEvents env := fun h => by
  have := (bootEvents_kind env _ h).2.1
  simp [Event.isCore] at this

/-- The routes `run` registers: those of `servedEcho` when `db.Dial` and
`runMigrations` succeed, none otherwise. -/
theorem registered_run (env : Env) :
    registered (run env).trace =
      if (env.dbDial env.configGet).2 = none ∧
          (runMigrations env env.configGet).step = .done none then
        (servedEcho (userControllerOf env)).routes
      else [] := by
  rcases run_cases env with ⟨err, hd, hr⟩ | ⟨err, hd, hm, hr⟩ | ⟨hd, hm, tail, st, hr, ht⟩
  · rw [hr, if_neg (by simp [hd])]
    simp [registered, Event.route?]
  · rw [hr, if_neg (by simp [hm])]
    simp [registered_append, registered_bootEvents]
    simp [registered, Event.route?]
  · rw [hr, if_pos ⟨hd, hm⟩]
    have htail : registered tail = [] := by
      rcases ht with ⟨-, rfl, -⟩ | ⟨v, -, rfl, -⟩ <;> simp [registered, Event.route?]
    rw [List.append_assoc, registered_append, registered_append, registered_bootEvents]
    simp [registered, Event.route?, setupEvents, servedEcho] at htail ⊢
    exact htail

/-- The only call of `Start` in a run is on `servedEcho`, at ":1323", and it
is made exactly when `db.Dial` and `runMigrations` succeed. -/
theorem start_mem_run (env : Env) (e : Echo) (a : String) :
    Event.start e a ∈ (run env).trace ↔
      ((env.dbDial env.configGet).2 = none ∧
        (runMigrations env env.configGet).step = .done none ∧
        e = servedEcho (userControllerOf env) ∧ a = ":1323") := by
  rcases run_cases env with ⟨err, hd, hr⟩ | ⟨err, hd, hm, hr⟩ | ⟨hd, hm, tail, st, hr, ht⟩
  · rw [hr]
    simp [hd]
  · rw [hr]
    simp [hm, start_not_mem_bootEvents]
  · rw [hr]
    have htail : Event.start e a ∉ tail := by
      rcases ht with ⟨-, rfl, -⟩ | ⟨v, -, rfl, -⟩ <;> simp
    simp [hd, hm, start_not_mem_bootEvents, htail, setupEvents]

/-! ## `runMigrations`: settings and results (C3, C4, C5, C6, C9) -/

/-- C3: with an empty `PgMigrationsPath`, `runMigrations` returns the error
"No cfg.PgMigrationsPath provided" and makes no call at all, so `migrate.New`
and `Up` are not called. -/
theorem runMigrations_no_path (env : Env) (cfg : Config) (h : cfg.PgMigrationsPath = "") :
    (runMigrations env cfg).step =
        .done (some (.errorsNew "No cfg.PgMigrationsPath provided")) ∧
      (runMigrations env cfg).trace = [] := by
  rw [runMigrations_eq, if_pos h]
  exact ⟨rfl, rfl⟩

theorem runMigrations_no_path_witness :
    (runMigrations envOk ⟨"postgres://localhost/users", ""⟩).step =
        .done (some (.errorsNew "No cfg.PgMigrationsPath provided")) ∧
      (runMigrations envOk ⟨"postgres://localhost/users", ""⟩).trace = [] :=
  runMigrations_no_path envOk ⟨"postgres://localhost/users", ""⟩ rfl

/-- C4: with a non-empty `PgMigrationsPath` and an empty `PgURL`,
`runMigrations` returns the error "No cfg.PgURL provided" and makes no call at
all, so `migrate.New` and `Up` are not called. -/
theorem runMigrations_no_url (env : Env) (cfg : Config) (hp : cfg.PgMigrationsPath ≠ "")
    (hu : cfg.PgURL = "") :
    (runMigrations env cfg).step = .done (some (.errorsNew "No cfg.PgURL provided")) ∧
      (runMigrations env cfg).trace = [] := by
  rw [runMigrations_eq, if_neg hp, if_pos hu]
  exact ⟨rfl, rfl⟩

theorem runMigrations_no_url_witness :
    (runMigrations envOk ⟨"", "file://migrations"⟩).step =
        .done (some (.errorsNew "No cfg.PgURL provided")) ∧
      (runMigrations envOk ⟨"", "file://migrations"⟩).trace = [] :=
  runMigrations_no_url envOk ⟨"", "file://migrations"⟩ (by decide) rfl

/-- C5: with both settings present and `migrate.New` successful, when `Up`
reports `migrate.ErrNoChange`, or nil, `runMigrations` returns nil after
exactly the two calls `migrate.New` and `Up`. -/
theorem runMigrations_no_change (env : Env) (cfg : Config) (hp : cfg.PgMigrationsPath ≠ "")
    (hu : cfg.PgURL ≠ "") (hn : (env.migrateNew cfg.PgMigrationsPath cfg.PgURL).2 = none)
    (hup : env.migrateUp (env.migrateNew cfg.PgMigrationsPath cfg.PgURL).1 = some .ErrNoChange ∨
      env.migrateUp (env.migrateNew cfg.PgMigrationsPath cfg.PgURL).1 = none) :
    (runMigrations env cfg).step = .done none ∧
      (runMigrations env cfg).trace =
        [.migrateNew cfg.PgMigrationsPath cfg.PgURL,
         .migrateUp (env.migrateNew cfg.PgMigrationsPath cfg.PgURL).1] := by
  rw [runMigrations_eq, if_neg hp, if_neg hu, if_neg (by simp [hn])]
  rcases hup with h | h <;> simp [h]

theorem runMigrations_no_change_witness :
    (runMigrations { envOk with migrateUp := fun _ => some .ErrNoChange } envOk.configGet).step
        = .done none ∧
      (runMigrations { envOk with migrateUp := fun _ => some .ErrNoChange } envOk.configGet).trace
        = [.migrateNew "file://migrations" "postgres://localhost/users", .migrateUp ⟨2⟩] :=
  runMigrations_no_change { envOk with migrateUp := fun _ => some .ErrNoChange } envOk.configGet
    (by decide) (by decide) rfl (Or.inl rfl)

/-- C6: with both settings present, `runMigrations` returns a non-nil error
exactly when `migrate.New` returns one, or `migrate.New` succeeds and `Up`
returns an error other than `migrate.ErrNoChange`; in the first case it
returns the error of `migrate.New` (and `Up` is not called), in the second the
error of `Up`, each unchanged. -/
theorem runMigrations_error_iff (env : Env) (cfg : Config) (hp : cfg.PgMigrationsPath ≠ "")
    (hu : cfg.PgURL ≠ "") :
    ((∃ err, (runMigrations env cfg).step = .done (some err)) ↔
      ((env.migrateNew cfg.PgMigrationsPath cfg.PgURL).2 ≠ none ∨
        ((env.migrateNew cfg.PgMigrationsPath cfg.PgURL).2 = none ∧
          ∃ e, env.migrateUp (env.migrateNew cfg.PgMigrationsPath cfg.PgURL).1 = some e ∧
            e ≠ .ErrNoChange))) ∧
    ((env.migrateNew cfg.PgMigrationsPath cfg.PgURL).2 ≠ none →
      (runMigrations env cfg).step = .done (env.migrateNew cfg.PgMigrationsPath cfg.PgURL).2 ∧
      (runMigrations env cfg).trace = [.migrateNew cfg.PgMigrationsPath cfg.PgURL]) ∧
    ((env.migrateNew cfg.PgMigrationsPath cfg.PgURL).2 = none →
      (∃ e, env.migrateUp (env.migrateNew cfg.PgMigrationsPath cfg.PgURL).1 = some e ∧
        e ≠ .ErrNoChange) →
      (runMigrations env cfg).step =
        .done (env.migrateUp (env.migrateNew cfg.PgMigrationsPath cfg.PgURL).1)) := by
  rw [runMigrations_eq, if_neg hp, if_neg hu]
  generalize env.migrateNew cfg.PgMigrationsPath cfg.PgURL = r
  obtain ⟨m, err⟩ := r
  generalize env.migrateUp m = up
  cases err with
  | some e => simp
  | none =>
    cases up with
    | none => simp
    | some u =>
      by_cases h : u = GoError.ErrNoChange
      · simp [h]
      · simp [h]

theorem runMigrations_error_iff_witness :
    (∃ err, (runMigrations { envOk with migrateUp := fun _ => some (.foreign 3) }
        envOk.configGet).step = .done (some err)) ∧
      (runMigrations { envOk with migrateUp := fun _ => some (.foreign 3) }
        envOk.configGet).step = .done (some (.foreign 3)) :=
  ⟨(runMigrations_error_iff { envOk with migrateUp := fun _ => some (.foreign 3) }
      envOk.configGet (by decide) (by decide)).1.2
      (Or.inr ⟨rfl, .foreign 3, rfl, by decide⟩),
    (runMigrations_error_iff { envOk with migrateUp := fun _ => some (.foreign 3) }
      envOk.configGet (by decide) (by decide)).2.2 rfl ⟨.foreign 3, rfl, by decide⟩⟩

/-- C9: when `PgMigrationsPath` and `PgURL` are both empty, `runMigrations`
returns the error "No cfg.PgMigrationsPath provided"; and whenever it returns
the error "No cfg.PgURL provided", `PgMigrationsPath` is not empty. -/
theorem runMigrations_path_check_first (env : Env) (cfg : Config) :
    (cfg.PgMigrationsPath = "" → cfg.PgURL = "" →
      (runMigrations env cfg).step =
        .done (some (.errorsNew "No cfg.PgMigrationsPath provided"))) ∧
    ((runMigrations env cfg).step = .done (some (.errorsNew "No cfg.PgURL provided")) →
      cfg.PgMigrationsPath ≠ "") := by
  rw [runMigrations_eq]
  refine ⟨fun hp _ => by rw [if_pos hp], fun h hp => ?_⟩
  rw [if_pos hp] at h
  revert h
  decide

theorem runMigrations_path_check_first_witness :
    (runMigrations envOk ⟨"", ""⟩).step =
        .done (some (.errorsNew "No cfg.PgMigrationsPath provided")) ∧
      (⟨"", "file://migrations"⟩ : Config).PgMigrationsPath ≠ "" :=
  ⟨(runMigrations_path_check_first envOk ⟨"", ""⟩).1 rfl rfl,
    (runMigrations_path_check_first envOk ⟨"", "file://migrations"⟩).2 (by decide)⟩

/-! ## The route table (C1, C2) -/

/-- C1: no route registered by `run`, and no route of the Echo instance on
which `run` starts the server, has the method PUT, whatever its path, and none
is bound to the `Update` handler. -/
theorem run_registers_no_PUT (env : Env) (r : Route)
    (h : r ∈ registered (run env).trace ∨
      ∃ e addr, Event.start e addr ∈ (run env).trace ∧ r ∈ e.routes) :
    r.method ≠ .PUT ∧ r.handler.method ≠ .Update := by
  have key : r ∈ (servedEcho (userControllerOf env)).routes := by
    rcases h with h | ⟨e, a, he, hr⟩
    · rw [registered_run] at h
      split_ifs at h
      · exact h
      · simp at h
    · rw [start_mem_run] at he
      rw [← he.2.2.1]
      exact hr
  simp only [servedEcho, List.mem_cons, List.mem_singleton, List.not_mem_nil, or_false] at key
  rcases key with rfl | rfl | rfl <;> simp

theorem run_registers_no_PUT_witness :
    (⟨.GET, "/users/:id", ⟨userControllerOf envOk, .Get⟩⟩ : Route).method ≠ .PUT ∧
      (⟨.GET, "/users/:id", ⟨userControllerOf envOk, .Get⟩⟩ : Route).handler.method ≠ .Update :=
  run_registers_no_PUT envOk ⟨.GET, "/users/:id", ⟨userControllerOf envOk, .Get⟩⟩
    (Or.inl (by decide))

/-- C2: when `db.Dial` and `runMigrations` succeed, `run` registers exactly
three routes, in this order: GET /users/:id bound to `Get`, DELETE /users/:id
bound to `Delete` and POST /users/ bound to `Create`, all three on the one
controller that `run` constructed; this is the route table of the Echo value
on which the server is started, and no (method, path) pair occurs in it
twice. -/
theorem run_route_table (env : Env) (hd : (env.dbDial env.configGet).2 = none)
    (hm : (runMigrations env env.configGet).step = .done none) :
    ∃ c : Users,
      (∀ ctx svc l, Event.newUsers ctx svc l ∈ (run env).trace ↔ c = ⟨ctx, svc, l⟩) ∧
      registered (run env).trace =
        [⟨.GET, "/users/:id", ⟨c, .Get⟩⟩, ⟨.DELETE, "/users/:id", ⟨c, .Delete⟩⟩,
         ⟨.POST, "/users/", ⟨c, .Create⟩⟩] ∧
      (∃ e, Event.start e ":1323" ∈ (run env).trace ∧ e.routes = registered (run env).trace) ∧
      ((registered (run env).trace).map fun r => (r.method, r.path)).Nodup := by
  refine ⟨userControllerOf env, ?_, ?_, ⟨servedEcho (userControllerOf env), ?_, ?_⟩, ?_⟩
  · intro ctx svc l
    rcases run_cases env with ⟨err, hd', -⟩ | ⟨err, -, hm', -⟩ | ⟨-, -, tail, st, hr, ht⟩
    · rw [hd] at hd'
      cases hd'
    · rw [hm] at hm'
      cases hm'
    · have hboot : Event.newUsers ctx svc l ∉ bootEvents env := fun h => by
        have := (bootEvents_kind env _ h).2.1
        simp [Event.isCore] at this
      have htail : Event.newUsers ctx svc l ∉ tail := by
        rcases ht with ⟨-, rfl, -⟩ | ⟨v, -, rfl, -⟩ <;> simp
      rw [hr]
      simp only [List.mem_append, List.mem_cons, hboot, htail, false_or, or_false]
      simp [setupEvents, userControllerOf]
      exact ⟨fun ⟨a, b⟩ => ⟨a.symm, b.symm⟩, fun ⟨a, b⟩ => ⟨a.symm, b.symm⟩⟩
  · rw [registered_run, if_pos ⟨hd, hm⟩]
    rfl
  · rw [start_mem_run]
    exact ⟨hd, hm, rfl, rfl⟩
  · rw [registered_run, if_pos ⟨hd, hm⟩]
  · rw [registered_run, if_pos ⟨hd, hm⟩]
    simp [servedEcho]

theorem run_route_table_witness :
    ∃ c : Users,
      (∀ ctx svc l, Event.newUsers ctx svc l ∈ (run envOk).trace ↔ c = ⟨ctx, svc, l⟩) ∧
      registered (run envOk).trace =
        [⟨.GET, "/users/:id", ⟨c, .Get⟩⟩, ⟨.DELETE, "/users/:id", ⟨c, .Delete⟩⟩,
         ⟨.POST, "/users/", ⟨c, .Create⟩⟩] ∧
      (∃ e, Event.start e ":1323" ∈ (run envOk).trace ∧
        e.routes = registered (run envOk).trace) ∧
      ((registered (run envOk).trace).map fun r => (r.method, r.path)).Nodup :=
  run_route_table envOk (by decide) (by decide)

/-! ## Order of the steps of `run` (C7, C8, C10) -/

/-- C7: if `runMigrations` returns an error, `run` ends in a process exit with
status 1 right after a `log.Fatal` call, and no step of the core (construction
of repository, service or controller, route registration, server start) is in
its trace; and wherever such a step occurs in a trace of `run`,
`runMigrations` has returned nil and all its calls come before that step. -/
theorem run_migrations_first (env : Env) :
    (∀ err, (runMigrations env env.configGet).step = .done (some err) →
      (run env).step = .exited 1 ∧
      (∃ err1, (run env).trace.getLast? = some (.logFatal err1)) ∧
      ∀ e ∈ (run env).trace, e.isCore = false) ∧
    (∀ pre e post, (run env).trace = pre ++ e :: post → e.isCore = true →
      (runMigrations env env.configGet).step = .done none ∧
      (runMigrations env env.configGet).trace <:+: pre) := by
  rcases run_cases env with ⟨err, hd, hr⟩ | ⟨err, hd, hm, hr⟩ | ⟨hd, hm, tail, st, hr, ht⟩
  · have hcore : ∀ e ∈ (run env).trace, e.isCore = false := by
      rw [hr]
      simp [Event.isCore]
    refine ⟨fun _ _ => ⟨by rw [hr], ⟨err, by rw [hr]; rfl⟩, hcore⟩, fun pre e post h he => ?_⟩
    have := hcore e (by rw [h]; simp)
    rw [he] at this
    cases this
  · have hcore : ∀ e ∈ (run env).trace, e.isCore = false := by
      rw [hr]
      intro e he
      rcases List.mem_append.1 he with he | he
      · exact (bootEvents_kind env e he).2.1
      · simp at he
        subst he
        rfl
    refine ⟨fun _ _ => ⟨by rw [hr], ⟨err, by rw [hr]; simp⟩, hcore⟩, fun pre e post h he => ?_⟩
    have := hcore e (by rw [h]; simp)
    rw [he] at this
    cases this
  · refine ⟨fun err h => ?_, fun pre e post h he => ⟨hm, ?_⟩⟩
    · rw [hm] at h
      cases h
    · rw [hr, List.append_assoc] at h
      obtain ⟨rest, rfl⟩ := front_of_split Event.isCore _ _ pre post e
        (fun x hx => (bootEvents_kind env x hx).2.1) h he
      exact ⟨[.configGet, .loggerGet, .dbDial env.configGet,
        .logPrintln "Running PostgreSQL migrations..."], rest, rfl⟩

theorem run_migrations_first_witness :
    ((run { envOk with migrateUp := fun _ => some (.foreign 3) }).step = .exited 1 ∧
      (∃ err1, (run { envOk with migrateUp := fun _ => some (.foreign 3) }).trace.getLast?
        = some (.logFatal err1)) ∧
      ∀ e ∈ (run { envOk with migrateUp := fun _ => some (.foreign 3) }).trace,
        e.isCore = false) ∧
    ((runMigrations envOk envOk.configGet).step = .done none ∧
      (runMigrations envOk envOk.configGet).trace <:+:
        [.configGet, .loggerGet, .dbDial envOk.configGet,
         .logPrintln "Running PostgreSQL migrations...",
         .migrateNew "file://migrations" "postgres://localhost/users", .migrateUp ⟨2⟩]) :=
  ⟨(run_migrations_first { envOk with migrateUp := fun _ => some (.foreign 3) }).1
      (.foreign 3) (by decide),
    (run_migrations_first envOk).2 _ (.newUserRepo ⟨1⟩) _ rfl rfl⟩

/-- C8: in every trace of `run`, a route registration or the server start is
preceded by the assignments `e.Validator = validator.NewValidator()` and
`e.HTTPErrorHandler = libError.Error`; the error handler is assigned at most
once, and exactly once, to `libError.Error`, in a run that registers a route or
starts the server; and the Echo instance on which the server is started has
that validator and that error handler. -/
theorem run_hooks_before_routes (env : Env) :
    (∀ pre e post, (run env).trace = pre ++ e :: post → e.isServe = true →
      Event.setValidator .NewValidator ∈ pre ∧
      Event.setHTTPErrorHandler .libErrorError ∈ pre) ∧
    ((run env).trace.filter Event.isSetHTTPErrorHandler).length ≤ 1 ∧
    ((∃ e ∈ (run env).trace, e.isServe = true) →
      (run env).trace.filter Event.isSetHTTPErrorHandler =
        [.setHTTPErrorHandler .libErrorError]) ∧
    (∀ e addr, Event.start e addr ∈ (run env).trace →
      e.Validator = some .NewValidator ∧ e.HTTPErrorHandler = .libErrorError) := by
  have hstart : ∀ e addr, Event.start e addr ∈ (run env).trace →
      e.Validator = some .NewValidator ∧ e.HTTPErrorHandler = .libErrorError := by
    intro e addr h
    rw [start_mem_run] at h
    rw [h.2.2.1]
    exact ⟨rfl, rfl⟩
  have hboot : (bootEvents env).filter Event.isSetHTTPErrorHandler = [] := by
    rw [List.filter_eq_nil_iff]
    intro e he
    simp [(bootEvents_kind env e he).2.2.2.1]
  rcases run_cases env with ⟨err, hd, hr⟩ | ⟨err, hd, hm, hr⟩ | ⟨hd, hm, tail, st, hr, ht⟩
  · have hserve : ∀ e ∈ (run env).trace, e.isServe = false := by
      rw [hr]
      simp [Event.isServe]
    refine ⟨fun pre e post h he => ?_, ?_, fun ⟨e, he, hs⟩ => ?_, hstart⟩
    · have := hserve e (by rw [h]; simp)
      rw [he] at this
      cases this
    · rw [hr]
      simp [List.filter, Event.isSetHTTPErrorHandler]
    · have := hserve e he
      rw [hs] at this
      cases this
  · have hserve : ∀ e ∈ (run env).trace, e.isServe = false := by
      rw [hr]
      intro e he
      rcases List.mem_append.1 he with he | he
      · exact (bootEvents_kind env e he).2.2.1
      · simp at he
        subst he
        rfl
    refine ⟨fun pre e post h he => ?_, ?_, fun ⟨e, he, hs⟩ => ?_, hstart⟩
    · have := hserve e (by rw [h]; simp)
      rw [he] at this
      cases this
    · rw [hr]
      simp only [List.filter_append, hboot]
      simp [List.filter, Event.isSetHTTPErrorHandler]
    · have := hserve e he
      rw [hs] at this
      cases this
  · have htail : tail.filter Event.isSetHTTPErrorHandler = [] := by
      rcases ht with ⟨-, rfl, -⟩ | ⟨v, -, rfl, -⟩ <;>
        simp [List.filter, Event.isSetHTTPErrorHandler]
    have hfilter : (run env).trace.filter Event.isSetHTTPErrorHandler =
        [.setHTTPErrorHandler .libErrorError] := by
      rw [hr]
      simp only [List.filter_append, hboot, List.filter_cons, htail]
      simp [setupEvents, List.filter, Event.isSetHTTPErrorHandler]
    refine ⟨fun pre e post h he => ?_, by rw [hfilter]; simp, fun _ => hfilter, hstart⟩
    rw [hr] at h
    have hsplit : bootEvents env ++ setupEvents (userControllerOf env) ++
        Event.start (servedEcho (userControllerOf env)) ":1323" :: tail =
        (bootEvents env ++ (setupEvents (userControllerOf env)).take 9) ++
          ((setupEvents (userControllerOf env)).drop 9 ++
            Event.start (servedEcho (userControllerOf env)) ":1323" :: tail) := by
      simp [setupEvents]
    rw [hsplit] at h
    obtain ⟨rest, rfl⟩ := front_of_split Event.isServe _ _ pre post e
      (fun x hx => by
        rcases List.mem_append.1 hx with hx | hx
        · exact (bootEvents_kind env x hx).2.2.1
        · simp [setupEvents] at hx
          rcases hx with rfl | rfl | rfl | rfl | rfl | rfl | rfl | rfl | rfl <;> rfl)
      h he
    simp [setupEvents]

theorem run_hooks_before_routes_witness :
    (Event.setValidator .NewValidator ∈ (run envOk).trace.take 15 ∧
      Event.setHTTPErrorHandler .libErrorError ∈ (run envOk).trace.take 15) ∧
    (run envOk).trace.filter Event.isSetHTTPErrorHandler =
      [.setHTTPErrorHandler .libErrorError] :=
  ⟨(run_hooks_before_routes envOk).1 ((run envOk).trace.take 15)
      (.add ⟨.GET, "/users/:id", ⟨userControllerOf envOk, .Get⟩⟩)
      ((run envOk).trace.drop 16) (by decide) rfl,
    (run_hooks_before_routes envOk).2.2.1
      ⟨.add ⟨.GET, "/users/:id", ⟨userControllerOf envOk, .Get⟩⟩, by decide, rfl⟩⟩

/-- C10: `run` never returns a non-nil error, so `main` makes no call beyond
those of `run` (its own `log.Fatal` is never called); a process exit inside
`run` always comes right after a fatal-log call; a failing `db.Dial` or
`runMigrations` ends the process with status 1 through `log.Fatal` of that
error; what `Start` returns is handed to `e.Logger.Fatal`; and `run` returns
(nil) only when that `e.Logger.Fatal` call has returned. -/
theorem run_never_returns_error (env : Env) :
    (∀ err, (run env).step ≠ .done (some err)) ∧
    (main env).trace = (run env).trace ∧
    (∀ c, (run env).step = .exited c →
      ∃ t e, (run env).trace = t ++ [e] ∧ e.isFatal = true) ∧
    (∀ err, (env.dbDial env.configGet).2 = some err →
      (run env).step = .exited 1 ∧ (run env).trace.getLast? = some (.logFatal err)) ∧
    (∀ err, (env.dbDial env.configGet).2 = none →
      (runMigrations env env.configGet).step = .done (some err) →
      (run env).step = .exited 1 ∧ (run env).trace.getLast? = some (.logFatal err)) ∧
    (∀ e addr v, Event.start e addr ∈ (run env).trace → env.echoStart e addr = .returns v →
      (run env).trace.getLast? = some (.loggerFatal v) ∧
      ((∃ c, env.loggerFatal v = .exits c ∧ (run env).step = .exited c) ∨
        (env.loggerFatal v = .returns ∧ (run env).step = .done none))) ∧
    ((run env).step = .done none →
      ∃ t v, (run env).trace = t ++ [.loggerFatal v] ∧ env.loggerFatal v = .returns) := by
  have hstart := start_mem_run env
  rcases run_cases env with ⟨err, hd, hr⟩ | ⟨err, hd, hm, hr⟩ | ⟨hd, hm, tail, st, hr, ht⟩
  · refine ⟨?_, ?_, ?_, ?_, ?_, ?_, ?_⟩
    · rw [hr]
      simp
    · unfold main
      rw [hr]
      rfl
    · exact fun c _ => ⟨[.configGet, .loggerGet, .dbDial env.configGet], .logFatal err,
        by rw [hr]; rfl, rfl⟩
    · intro err1 h
      rw [hd] at h
      cases h
      rw [hr]
      exact ⟨rfl, rfl⟩
    · intro err1 h
      rw [hd] at h
      cases h
    · intro e addr v h
      rw [hstart, hd] at h
      cases h.1
    · rw [hr]
      simp
  · refine ⟨?_, ?_, ?_, ?_, ?_, ?_, ?_⟩
    · rw [hr]
      simp
    · unfold main
      rw [hr]
      rfl
    · exact fun c _ => ⟨_, .logFatal err, by rw [hr], rfl⟩
    · intro err1 h
      rw [hd] at h
      cases h
    · intro err1 _ h
      rw [hm] at h
      cases h
      rw [hr]
      simp
    · intro e addr v h
      rw [hstart, hm] at h
      cases h.2.1
    · rw [hr]
      simp
  · refine ⟨?_, ?_, ?_, ?_, ?_, ?_, ?_⟩
    · rw [hr]
      rcases ht with ⟨-, -, rfl⟩ | ⟨v, -, -, ⟨c, -, rfl⟩ | ⟨-, rfl⟩⟩ <;> simp
    · unfold main
      rw [hr]
      rcases ht with ⟨-, -, rfl⟩ | ⟨v, -, -, ⟨c, -, rfl⟩ | ⟨-, rfl⟩⟩
      · rfl
      · rfl
      · simp [Proc.bind_done, Proc.pure_eq]
    · intro c hc
      rw [hr] at hc ⊢
      rcases ht with ⟨-, -, rfl⟩ | ⟨v, -, rfl, -⟩
      · cases hc
      · exact ⟨bootEvents env ++ setupEvents (userControllerOf env) ++
          [.start (servedEcho (userControllerOf env)) ":1323"], .loggerFatal v, by simp, rfl⟩
    · intro err1 h
      rw [hd] at h
      cases h
    · intro err1 _ h
      rw [hm] at h
      cases h
    · intro e addr v h hv
      rw [hstart] at h
      obtain ⟨-, -, rfl, rfl⟩ := h
      rw [hr]
      rcases ht with ⟨hb, -, -⟩ | ⟨v1, hv1, rfl, hf⟩
      · rw [hb] at hv
        cases hv
      · rw [hv1] at hv
        cases hv
        refine ⟨by simp, ?_⟩
        rcases hf with ⟨c, hc, rfl⟩ | ⟨hc, rfl⟩
        · exact Or.inl ⟨c, hc, rfl⟩
        · exact Or.inr ⟨hc, rfl⟩
    · intro h
      rw [hr] at h ⊢
      rcases ht with ⟨-, -, rfl⟩ | ⟨v, -, rfl, ⟨c, -, rfl⟩ | ⟨hc, rfl⟩⟩
      · cases h
      · cases h
      · exact ⟨bootEvents env ++ setupEvents (userControllerOf env) ++
          [.start (servedEcho (userControllerOf env)) ":1323"], v, by simp, hc⟩

theorem run_never_returns_error_witness :
    ((run { envOk with dbDial := fun _ => (⟨0⟩, some (.foreign 5)) }).step = .exited 1 ∧
      (run { envOk with dbDial := fun _ => (⟨0⟩, some (.foreign 5)) }).trace.getLast?
        = some (.logFatal (.foreign 5))) ∧
    (∃ t v, (run { envOk with loggerFatal := fun _ => .returns }).trace = t ++ [.loggerFatal v] ∧
      ({ envOk with loggerFatal := fun _ => .returns } : Env).loggerFatal v = .returns) :=
  ⟨(run_never_returns_error { envOk with dbDial := fun _ => (⟨0⟩, some (.foreign 5)) }).2.2.2.1
      (.foreign 5) rfl,
    (run_never_returns_error { envOk with loggerFatal := fun _ => .returns }).2.2.2.2.2.2
      (by decide)⟩

end SimpleWebServer
